import Mathlib

/-!
Verification of the contact-classification pipeline (rules engine,
enrichment stage with caching and budget, tiered AI classification stage).

The definitions below are a shallow embedding of the TypeScript sources:
  * `supabase/functions/_shared/rules-engine.ts` (classifyByRules, applyFieldHeuristics)
  * `supabase/functions/_shared/types.ts` (createCacheKey, getEmailDomain, createAIInputHash)
  * `supabase/functions/_shared/enrichment.ts` (enrichContact and helper lookups)
  * the `enrich-contacts`, `classify-ai` and `classify-rules` edge functions.

JavaScript specifics are modelled explicitly:
  * `String.prototype.includes` is `strContains` (substring test);
  * `toLowerCase` is modelled on ASCII plus the Latin-1 uppercase range
    (every keyword in the dictionaries is already lower-case);
  * `Math.round(a / b)` on non-negative numbers is `jsRoundDiv a b`
    (round half up; `topScore * 100 / 30` is never exactly a half-integer,
    so float rounding agrees with exact rational rounding);
  * `Array.prototype.sort` with comparator `b.score - a.score` is a stable
    descending insertion sort (`sortDesc`);
  * network effects (Bing search, Google Maps, site fetch, OpenAI) are
    oracles carried in an environment record, together with counters for
    how many real external calls were performed;
  * environment variables (thresholds, caps, API-key presence) are
    explicit parameters.
-/

namespace ContactPipeline

/-- The four-way category enum of `types.ts`. -/
inductive Category where
  | CLIENT
  | PRESCRIBER
  | SUPPLIER
  | A_QUALIFIER
deriving DecidableEq, Repr

/-- The `language` tag of a job (`'en' | 'fr'`). -/
inductive Language where
  | en
  | fr
deriving DecidableEq, Repr

/-- Classification method enum of `types.ts`. -/
inductive CMethod where
  | RULES
  | AI
  | HYBRID
deriving DecidableEq, Repr

/-- Row lifecycle status enum of `types.ts`. -/
inductive RowStatus where
  | PENDING
  | PROCESSING
  | COMPLETED
  | FAILED
deriving DecidableEq, Repr

/-- Enrichment status enum of `types.ts`. -/
inductive EnrichStatus where
  | SEARCHING
  | CLASSIFYING
  | DONE
  | FAILED
deriving DecidableEq, Repr

/-- Job status enum of `types.ts`. -/
inductive JobStatus where
  | PENDING
  | PARSING
  | RULES
  | ENRICHING
  | AI_CLASSIFYING
  | COMPLETED
  | FAILED
deriving DecidableEq, Repr

/-- Severity tag of an activity-log entry. -/
inductive Severity where
  | INFO
  | SUCCESS
  | WARNING
  | ERROR
deriving DecidableEq, Repr

/-- The fields of `NormalizedContact` that the classification pipeline reads
(`nom_complet` is a plain string in the source, every other field is optional). -/
structure NormalizedContact where
  nom_complet : String
  n_tva : Option String := none
  email : Option String := none
  vendeur : Option String := none
  activites : Option String := none
  ville : Option String := none
  pays : Option String := none
  etiquettes : Option String := none
deriving DecidableEq, Repr

/-- `ClassificationResult` of `types.ts`. -/
structure ClassificationResult where
  final_category : Category
  confidence : Nat
  reason : String
  public_signals_used : String
  needs_review : Bool
deriving DecidableEq, Repr

/-- JavaScript `toLowerCase` restricted to ASCII `A`-`Z` plus the Latin-1
uppercase letters `À`-`Þ` (excluding `×`); the keyword dictionaries are
entirely lower-case, so this covers every comparison the engine performs. -/
def jsCharLower (c : Char) : Char :=
  let n := c.toNat
  if 65 ≤ n ∧ n ≤ 90 then Char.ofNat (n + 32)
  else if 192 ≤ n ∧ n ≤ 222 ∧ n ≠ 215 then Char.ofNat (n + 32)
  else c

/-- JavaScript `s.toLowerCase()`. -/
def jsToLower (s : String) : String :=
  String.mk (s.data.map jsCharLower)

/-- Strip leading and trailing whitespace from a character list. -/
def trimChars (l : List Char) : List Char :=
  ((l.dropWhile fun c => c.isWhitespace).reverse.dropWhile fun c => c.isWhitespace).reverse

/-- JavaScript `s.trim()`. -/
def jsTrim (s : String) : String :=
  String.mk (trimChars s.data)

/-- Split a character list on a separator character (JavaScript
`String.prototype.split` with a single-character separator). -/
def splitCharsAux (sep : Char) : List Char → List Char → List (List Char)
  | [], acc => [acc.reverse]
  | c :: cs, acc =>
    if c = sep then acc.reverse :: splitCharsAux sep cs []
    else splitCharsAux sep cs (c :: acc)

/-- JavaScript `s.split(sep)` for a one-character separator. -/
def jsSplit (sep : Char) (s : String) : List String :=
  (splitCharsAux sep s.data []).map String.mk

/-- JavaScript `s.substring(0, n)`. -/
def jsSubstring (s : String) (n : Nat) : String :=
  String.mk (s.data.take n)

/-- Does `hay` start with `needle`? (helper for the substring test). -/
def leadMatch : List Char → List Char → Bool
  | [], _ => true
  | _ :: _, [] => false
  | c :: cs, d :: ds => c == d && leadMatch cs ds

/-- Does `hay` contain `needle` as a contiguous run? -/
def subMatch (needle : List Char) : List Char → Bool
  | [] => needle.isEmpty
  | d :: ds => leadMatch needle (d :: ds) || subMatch needle ds

/-- JavaScript `hay.includes(needle)`. -/
def strContains (hay needle : String) : Bool :=
  subMatch needle.data hay.data

/-- `Math.round (a / b)` for non-negative operands: round half up. -/
def jsRoundDiv (a b : Nat) : Nat :=
  (2 * a + b) / (2 * b)

/-- A keyword dictionary split into high/medium/low tiers (`rules-engine.ts`). -/
structure KeywordSet where
  high : List String
  medium : List String
  low : List String

/-- `CLIENT_KEYWORDS` of `rules-engine.ts`. -/
def CLIENT_KEYWORDS : KeywordSet where
  high := ["client", "customer", "acheteur", "buyer", "consommateur", "consumer",
    "particulier", "individual", "patient direct", "end user"]
  medium := ["commande", "order", "achat", "purchase", "facture client", "invoice",
    "vente", "sale", "retail", "détail"]
  low := ["contact", "demande", "request", "inquiry", "renseignement"]

/-- `PRESCRIBER_KEYWORDS` of `rules-engine.ts`. -/
def PRESCRIBER_KEYWORDS : KeywordSet where
  high := ["médecin", "doctor", "dr", "docteur", "prescripteur", "prescriber",
    "praticien", "practitioner", "clinique", "clinic", "cabinet médical",
    "hôpital", "hospital", "pharmacien", "pharmacist", "dentiste", "dentist",
    "vétérinaire", "veterinarian", "infirmier", "nurse", "kiné", "physiotherapist"]
  medium := ["santé", "health", "médical", "medical", "soin", "care", "thérapie",
    "therapy", "diagnostic", "traitement", "treatment", "ordonnance", "prescription"]
  low := ["professionnel santé", "health professional", "spécialiste", "specialist"]

/-- `SUPPLIER_KEYWORDS` of `rules-engine.ts`. -/
def SUPPLIER_KEYWORDS : KeywordSet where
  high := ["fournisseur", "supplier", "vendeur", "vendor", "distributeur", "distributor",
    "grossiste", "wholesaler", "fabricant", "manufacturer", "producteur", "producer",
    "importateur", "importer", "exportateur", "exporter"]
  medium := ["livraison", "delivery", "approvisionnement", "supply", "stock", "inventory",
    "commande fournisseur", "purchase order", "b2b", "commerce", "trade"]
  low := ["partenaire", "partner", "prestataire", "service provider", "sous-traitant", "subcontractor"]

/-- The tier weights object `WEIGHTS` of `rules-engine.ts`. -/
structure Weights where
  high : Nat
  medium : Nat
  low : Nat

/-- `WEIGHTS = { high: 10, medium: 5, low: 2 }`. -/
def WEIGHTS : Weights := ⟨10, 5, 2⟩

/-- `CategoryScore` of `rules-engine.ts`. -/
structure CategoryScore where
  category : Category
  score : Nat
  signals : List String
deriving DecidableEq, Repr

/-- The lower-cased haystack built by `classifyByRules`:
`[nom_complet, activites, etiquettes, vendeur].filter(Boolean).join(' ').toLowerCase()`. -/
def searchTextOf (c : NormalizedContact) : String :=
  jsToLower (String.intercalate " "
    (([some c.nom_complet, c.activites, c.etiquettes, c.vendeur].filterMap id).filter
      (fun s => !(s == ""))))

/-- `scoreCategory` of `rules-engine.ts`: weight sum and fired-signal list for
one keyword dictionary (high matches first, then medium, then low). -/
def scoreCategory (text : String) (kw : KeywordSet) : Nat × List String :=
  let hi := kw.high.filter (fun k => strContains text (jsToLower k))
  let md := kw.medium.filter (fun k => strContains text (jsToLower k))
  let lo := kw.low.filter (fun k => strContains text (jsToLower k))
  (WEIGHTS.high * hi.length + WEIGHTS.medium * md.length + WEIGHTS.low * lo.length,
    hi ++ md ++ lo)

/-- One step of the stable descending insertion sort modelling
`scores.sort((a, b) => b.score - a.score)` (an earlier element stays in
front of a later element with the same score, as in the stable JS sort). -/
def insertDesc (x : CategoryScore) : List CategoryScore → List CategoryScore
  | [] => [x]
  | y :: ys => if y.score ≤ x.score then x :: y :: ys else y :: insertDesc x ys

/-- Stable sort of the category scores, descending by score. -/
def sortDesc (l : List CategoryScore) : List CategoryScore :=
  l.foldr insertDesc []

/-- `classifyByRules` of `rules-engine.ts`, parameterized by the two
environment-supplied thresholds (`RULE_ACCEPT_THRESHOLD`, default 80, and
`RULE_MARGIN_THRESHOLD`, default 15). -/
def classifyByRules (contact : NormalizedContact) (language : Language)
    (RULE_ACCEPT_THRESHOLD RULE_MARGIN_THRESHOLD : Nat) : Option ClassificationResult :=
  let text := searchTextOf contact
  let sC := scoreCategory text CLIENT_KEYWORDS
  let sP := scoreCategory text PRESCRIBER_KEYWORDS
  let sS := scoreCategory text SUPPLIER_KEYWORDS
  let scores : List CategoryScore :=
    [⟨Category.CLIENT, sC.1, sC.2⟩, ⟨Category.PRESCRIBER, sP.1, sP.2⟩,
      ⟨Category.SUPPLIER, sS.1, sS.2⟩]
  let sorted := sortDesc scores
  let s0 := sorted.headD ⟨Category.A_QUALIFIER, 0, []⟩
  let s1 := (sorted.drop 1).headD ⟨Category.A_QUALIFIER, 0, []⟩
  let topScore := s0.score
  let secondScore := s1.score
  let margin := topScore - secondScore
  let maxPossibleScore := WEIGHTS.high * 3
  let confidence := min 100 (jsRoundDiv (topScore * 100) maxPossibleScore)
  if RULE_ACCEPT_THRESHOLD ≤ confidence ∧ RULE_MARGIN_THRESHOLD ≤ margin ∧ 0 < topScore then
    some
      { final_category := s0.category
      , confidence := confidence
      , reason :=
          (match language with
            | Language.fr => "Classification par règles: " ++ String.intercalate ", " (s0.signals.take 3)
            | Language.en => "Rules-based classification: " ++ String.intercalate ", " (s0.signals.take 3))
      , public_signals_used := String.intercalate "; " (s0.signals.take 5)
      , needs_review := confidence < 90 }
  else
    none

/-- `applyFieldHeuristics` of `rules-engine.ts` (domain keyword lists, VAT
presence); returns an advisory category/score/signal hint or nothing. -/
def applyFieldHeuristics (contact : NormalizedContact) : Option CategoryScore :=
  let email := jsToLower (contact.email.getD "")
  let domain := (jsSplit '@' email).getD 1 ""
  if strContains domain "clinic" || strContains domain "hospital" || strContains domain "medical" ||
      strContains domain "pharma" || strContains domain "sante" || strContains domain "health" then
    some ⟨Category.PRESCRIBER, WEIGHTS.high, ["Medical domain detected"]⟩
  else if strContains domain "supplier" || strContains domain "wholesale" || strContains domain "distribution" ||
      strContains domain "fournisseur" || strContains domain "grossiste" then
    some ⟨Category.SUPPLIER, WEIGHTS.high, ["Supplier domain detected"]⟩
  else
    match contact.n_tva with
    | some t => if !(t == "") && decide (5 < (jsTrim t).length) then
        some ⟨Category.SUPPLIER, WEIGHTS.medium, ["VAT number present"]⟩
      else none
    | none => none

/-- The row update written by one iteration of the `classify-rules` edge
function's per-row loop. -/
structure RulesRowWrite where
  final_category : Category
  confidence : Nat
  reason : Option String
  public_signals : String
  needs_review : Bool
  classification_method : CMethod
  ai_used : Bool
  row_status : RowStatus
deriving DecidableEq, Repr

/-- Per-row logic of the `classify-rules` edge function: heuristics first,
then the rules engine; a rules hit wins, otherwise the heuristic hint is
persisted at confidence 60 with the row left `PENDING`; otherwise no write. -/
def classifyRulesRow (n : NormalizedContact) (language : Language)
    (RULE_ACCEPT_THRESHOLD RULE_MARGIN_THRESHOLD : Nat) : Option RulesRowWrite :=
  let heuristic := applyFieldHeuristics n
  let result := classifyByRules n language RULE_ACCEPT_THRESHOLD RULE_MARGIN_THRESHOLD
  match result with
  | some r =>
    some
      { final_category := r.final_category
      , confidence := r.confidence
      , reason := some r.reason
      , public_signals := r.public_signals_used
      , needs_review := r.needs_review
      , classification_method := CMethod.RULES
      , ai_used := false
      , row_status := RowStatus.COMPLETED }
  | none =>
    match heuristic with
    | some h =>
      some
        { final_category := h.category
        , confidence := 60
        , reason := none
        , public_signals := String.intercalate "; " h.signals
        , needs_review := true
        , classification_method := CMethod.RULES
        , ai_used := false
        , row_status := RowStatus.PENDING }
    | none => none

/-- `EnrichmentData` of `types.ts` (the fields the enrichment helper writes). -/
structure EnrichmentData where
  domain : Option String := none
  business_type : Option String := none
  website_title : Option String := none
  website_description : Option String := none
  search_snippets : Option (List String) := none
  maps_categories : Option (List String) := none
  signals_summary : Option String := none
deriving DecidableEq, Repr

/-- Scan for the first `@` that is followed by at least one character and
return the remainder (the behaviour of the regex `/@(.+)$/`). -/
def emailDomAux : List Char → Option (List Char)
  | [] => none
  | c :: cs => if c = '@' ∧ cs ≠ [] then some cs else emailDomAux cs

/-- `getEmailDomain` of `types.ts`: everything after the first `@` with a
non-empty remainder, lower-cased; `none` when the email is missing or has
no such `@`. -/
def getEmailDomain (email : Option String) : Option String :=
  match email with
  | none => none
  | some e => (emailDomAux e.data).map (fun cs => jsToLower (String.mk cs))

/-- `createCacheKey` of `types.ts`: `(domain || name) : city : country`,
case-normalized and trimmed. -/
def createCacheKey (contact : NormalizedContact) : String :=
  let domain := getEmailDomain contact.email
  let name := jsTrim (jsToLower contact.nom_complet)
  let city := jsTrim (jsToLower (contact.ville.getD ""))
  let country := jsTrim (jsToLower (contact.pays.getD ""))
  (domain.getD name) ++ ":" ++ city ++ ":" ++ country

/-- Environment of the enrichment helper: which API keys are configured and
oracles for the three external providers (an oracle answering `none` models
a failed or empty response, which the source maps to `null`). -/
structure EnrichEnv where
  bingKey : Bool
  mapsKey : Bool
  webSearch : String → Option (List String)
  mapsLookup : String → Option (List String)
  siteFetch : String → Option (Option String × Option String)

/-- The query string `"${nom_complet} ${ville || ''} ${pays || ''}".trim()`
used by both the web search and the places lookup. -/
def searchQuery (c : NormalizedContact) : String :=
  jsTrim (c.nom_complet ++ " " ++ (c.ville.getD "") ++ " " ++ (c.pays.getD ""))

/-- Business-type guess extracted from the search snippets (last matching
snippet wins, as in the source's loop). -/
def extractBusinessType (snippets : List String) : Option String :=
  snippets.foldl
    (fun bt page =>
      let s := jsToLower page
      if strContains s "clinic" || strContains s "hospital" || strContains s "medical" then
        some "medical"
      else if strContains s "supplier" || strContains s "wholesale" || strContains s "distributor" then
        some "supplier"
      else if strContains s "client" || strContains s "customer" || strContains s "retail" then
        some "client"
      else bt)
    none

/-- `performWebSearch` of `enrichment.ts`; the second component counts real
network calls: zero when no search API key is configured, one otherwise. -/
def performWebSearch (env : EnrichEnv) (contact : NormalizedContact) :
    Option (List String × Option String) × Nat :=
  if ¬ env.bingKey then (none, 0)
  else
    match env.webSearch (searchQuery contact) with
    | none => (none, 1)
    | some pages =>
      let top := pages.take 3
      (some (top, extractBusinessType top), 1)

/-- `fetchGoogleMapsData` of `enrichment.ts`: category tags of the first
candidate, with the same call accounting as the web search. -/
def fetchGoogleMapsData (env : EnrichEnv) (contact : NormalizedContact) :
    Option (List String) × Nat :=
  if ¬ env.mapsKey then (none, 0)
  else
    match env.mapsLookup (searchQuery contact) with
    | none => (none, 1)
    | some types => (some types, 1)

/-- `fetchWebsiteMetadata` of `enrichment.ts`: title/description of the
domain's site; the fetch itself is always one network call. -/
def fetchWebsiteMetadata (env : EnrichEnv) (domain : String) :
    Option (Option String × Option String) × Nat :=
  match env.siteFetch domain with
  | none => (none, 1)
  | some td => (some td, 1)

/-- `createSignalsSummary` of `enrichment.ts`. -/
def createSignalsSummary (data : EnrichmentData) : String :=
  let signals : List String :=
    (match data.business_type with
      | some bt => ["Business type: " ++ bt]
      | none => []) ++
    (match data.maps_categories with
      | some cats =>
        if 0 < cats.length then ["Categories: " ++ String.intercalate ", " (cats.take 3)] else []
      | none => []) ++
    (match data.website_title with
      | some t => ["Website: " ++ jsSubstring t 50]
      | none => []) ++
    (match data.search_snippets with
      | some (s :: _) => ["Found in search: " ++ jsSubstring s 80 ++ "..."]
      | _ => [])
  String.intercalate "; " signals

/-- `enrichContact` of `enrichment.ts`: staged lookups cumulative by depth;
returns the payload together with the number of real network calls made. -/
def enrichContact (env : EnrichEnv) (contact : NormalizedContact) (depth : Nat) :
    Option EnrichmentData × Nat :=
  let domain := getEmailDomain contact.email
  let d0 : EnrichmentData := { domain := domain }
  let r1 :=
    if 1 ≤ depth then
      match performWebSearch env contact with
      | (some (snips, bt), n) =>
        ({ d0 with search_snippets := some snips, business_type := bt }, n)
      | (none, n) => (d0, n)
    else (d0, 0)
  let r2 :=
    if 2 ≤ depth ∧ contact.ville.getD "" ≠ "" ∧ contact.nom_complet ≠ "" then
      match fetchGoogleMapsData env contact with
      | (some cats, n) => ({ r1.1 with maps_categories := some cats }, n)
      | (none, n) => (r1.1, n)
    else (r1.1, 0)
  let r3 :=
    match domain with
    | some dom =>
      if 3 ≤ depth then
        match fetchWebsiteMetadata env dom with
        | (some td, n) => ({ r2.1 with website_title := td.1, website_description := td.2 }, n)
        | (none, n) => (r2.1, n)
      else (r2.1, 0)
    | none => (r2.1, 0)
  (some { r3.1 with signals_summary := some (createSignalsSummary r3.1) },
    r1.2 + r2.2 + r3.2)

/-- One row of the `enrichment_cache` table. -/
structure CacheEntry where
  cache_key : String
  enrichment_data : EnrichmentData
  expires_at : Nat
deriving DecidableEq, Repr

/-- The enrichment cache read:
`select enrichment_data where cache_key = key and expires_at > now`. -/
def cacheGet (store : List CacheEntry) (key : String) (now : Nat) : Option EnrichmentData :=
  (store.find? (fun e => e.cache_key == key && decide (now < e.expires_at))).map
    (fun e => e.enrichment_data)

/-- The enrichment cache upsert, keyed by `cache_key` (last write wins). -/
def cacheUpsert (store : List CacheEntry) (e : CacheEntry) : List CacheEntry :=
  if store.any (fun x => x.cache_key == e.cache_key) then
    store.map (fun x => if x.cache_key == e.cache_key then e else x)
  else store ++ [e]

/-- Observable outcome of processing one row inside the `enrich-contacts`
loop: payload obtained, whether the cache answered, the increment applied to
the per-invocation `searchCalls` counter, the number of real network calls,
the new cache state, and the enrichment status written to the row. -/
structure EnrichRowOutcome where
  data : Option EnrichmentData
  cacheHit : Bool
  searchCallsDelta : Nat
  networkCalls : Nat
  store : List CacheEntry
  enrichment_status : EnrichStatus
deriving Repr

/-- Body of the per-row loop of the `enrich-contacts` edge function (after
the budget check): cache lookup, enrichment on miss with `searchCalls++`,
cache write-back of a non-null payload, row status update. -/
def processEnrichRow (env : EnrichEnv) (depth now expiresAt : Nat)
    (store : List CacheEntry) (n : NormalizedContact) : EnrichRowOutcome :=
  let key := createCacheKey n
  match cacheGet store key now with
  | some d =>
    { data := some d, cacheHit := true, searchCallsDelta := 0, networkCalls := 0
    , store := store, enrichment_status := EnrichStatus.DONE }
  | none =>
    let r := enrichContact env n depth
    let store2 :=
      match r.1 with
      | some d => cacheUpsert store ⟨key, d, expiresAt⟩
      | none => store
    { data := r.1, cacheHit := false, searchCallsDelta := 1, networkCalls := r.2
    , store := store2
    , enrichment_status :=
        match r.1 with
        | some _ => EnrichStatus.DONE
        | none => EnrichStatus.FAILED }

/-- Accumulator of the `enrich-contacts` row loop. -/
structure EnrichLoopState where
  searchCalls : Nat
  networkCalls : Nat
  cacheHits : Nat
  enrichedCount : Nat
  store : List CacheEntry
  logs : List Severity
deriving Repr

/-- The row loop of `enrich-contacts`: before each row the remaining budget
is checked (`searchCalls >= MAX_SEARCH_CALLS - job.search_calls_count`
breaks with a WARNING), then the row is processed. -/
def enrichLoop (env : EnrichEnv) (depth now expiresAt maxCalls jobCount : Nat) :
    List NormalizedContact → EnrichLoopState → EnrichLoopState
  | [], st => st
  | n :: rest, st =>
    if maxCalls - jobCount ≤ st.searchCalls then
      { st with logs := st.logs ++ [Severity.WARNING] }
    else
      let o := processEnrichRow env depth now expiresAt st.store n
      enrichLoop env depth now expiresAt maxCalls jobCount rest
        { searchCalls := st.searchCalls + o.searchCallsDelta
        , networkCalls := st.networkCalls + o.networkCalls
        , cacheHits := st.cacheHits + (if o.cacheHit then 1 else 0)
        , enrichedCount := st.enrichedCount + (if o.data.isSome then 1 else 0)
        , store := o.store
        , logs := st.logs }

/-- Observable outcome of one invocation of the `enrich-contacts` edge
function. -/
structure EnrichInvocationOutcome where
  search_calls_count : Nat
  networkCalls : Nat
  logs : List Severity
  earlyReturn : Bool
  store : List CacheEntry
  statusWrites : List JobStatus
deriving Repr

/-- One invocation of `enrich-contacts`: pre-check of the job's
`search_calls_count` against `MAX_SEARCH_CALLS_PER_JOB` (warn and return at
or above the cap), otherwise run the row loop and add the invocation's
`searchCalls` to the job counter. -/
def enrichInvocation (env : EnrichEnv) (depth now expiresAt maxCalls jobCount : Nat)
    (rows : List NormalizedContact) (store : List CacheEntry) : EnrichInvocationOutcome :=
  if maxCalls ≤ jobCount then
    { search_calls_count := jobCount, networkCalls := 0, logs := [Severity.WARNING]
    , earlyReturn := true, store := store, statusWrites := [] }
  else
    match rows with
    | [] =>
      { search_calls_count := jobCount, networkCalls := 0
      , logs := [Severity.INFO, Severity.INFO], earlyReturn := false, store := store
      , statusWrites := [JobStatus.ENRICHING] }
    | _ =>
      let st := enrichLoop env depth now expiresAt maxCalls jobCount rows
        ⟨0, 0, 0, 0, store, []⟩
      { search_calls_count := jobCount + st.searchCalls
      , networkCalls := st.networkCalls
      , logs := [Severity.INFO] ++ st.logs ++ [Severity.SUCCESS]
      , earlyReturn := false
      , store := st.store
      , statusWrites := [JobStatus.ENRICHING, JobStatus.AI_CLASSIFYING] }

/-- Signed 32-bit truncation (`x & x` after JavaScript bitwise ops). -/
def toInt32 (x : Int) : Int :=
  let m := x % 4294967296
  if m < 2147483648 then m else m - 4294967296

/-- One step of the rolling hash `hash = ((hash << 5) - hash) + char` with
32-bit wrap-around, as in `createAIInputHash` of `types.ts`. -/
def hashStep (h : Int) (c : Char) : Int :=
  toInt32 (toInt32 (h * 32) - h + Int.ofNat c.toNat)

/-- `createAIInputHash` of `types.ts`. The source renders the final 32-bit
value in base 36; rendering is injective, so the cache is modelled as keyed
by the integer value itself. -/
def createAIInputHash (input : String) : Int :=
  input.data.foldl hashStep 0

/-- One per-contact result of the structured AI response (`openai.ts`). -/
structure AIResult where
  index : Nat
  final_category : Category
  confidence : Nat
  reason : String
  public_signals_used : String
  needs_review : Bool
deriving DecidableEq, Repr

/-- One contact of the batch request built by `classify-ai`. -/
structure AIContact where
  index : Nat
  nom_complet : String
  activites : Option String
  email : Option String
  ville : Option String
  pays : Option String
  enrichment_summary : Option String
deriving DecidableEq, Repr

/-- The fields of a `job_rows` record that `classify-ai` reads. -/
structure AIRow where
  id : Nat
  row_index : Nat
  normalized : NormalizedContact
  enrichment : Option EnrichmentData
  classification_method : Option CMethod
  ai_used : Bool
  ai_attempts : Nat
  final_category : Option Category
  confidence : Option Nat
  needs_review : Bool
deriving DecidableEq, Repr

/-- The batch-contact projection performed by `classify-ai`. -/
def aiContactOf (row : AIRow) : AIContact :=
  { index := row.row_index
  , nom_complet := row.normalized.nom_complet
  , activites := row.normalized.activites
  , email := row.normalized.email
  , ville := row.normalized.ville
  , pays := row.normalized.pays
  , enrichment_summary := row.enrichment.bind (fun e => e.signals_summary) }

/-- The value returned by `classifyWithAI` (`openai.ts`). -/
structure AIResponse where
  results : List AIResult
  model_used : String
  tokens_used : Nat
deriving Repr

/-- Environment of the AI stage: `classify b contacts lang` is
`classifyWithAI(request, usePrimaryModel = b)`; `serialize` is
`JSON.stringify` of the contact list; `pick` supplies the
`Math.floor(Math.random() * 3)` draw used by the anti-fallback
reassignment, indexed by the result's row index. -/
structure AIEnv where
  classify : Bool → List AIContact → Language → AIResponse
  serialize : List AIContact → String
  pick : Nat → Fin 3

/-- The string appended to the serialized batch (`job.language`). -/
def langStr : Language → String
  | Language.en => "en"
  | Language.fr => "fr"

/-- The AI cache key of one batch:
`createAIInputHash(JSON.stringify(contacts) + job.language)`. -/
def batchHash (env : AIEnv) (lang : Language) (contacts : List AIContact) : Int :=
  createAIInputHash (env.serialize contacts ++ langStr lang)

/-- One row of the `ai_cache` table. -/
structure AICacheEntry where
  input_hash : Int
  results : List AIResult
  model_used : String
  expires_at : Nat
deriving DecidableEq, Repr

/-- The AI cache read:
`select response_data, model_used where input_hash = h and expires_at > now`. -/
def aiCacheGet (store : List AICacheEntry) (h : Int) (now : Nat) :
    Option (List AIResult × String) :=
  (store.find? (fun e => e.input_hash == h && decide (now < e.expires_at))).map
    (fun e => (e.results, e.model_used))

/-- The AI cache upsert, keyed by `input_hash`. -/
def aiCacheUpsert (store : List AICacheEntry) (e : AICacheEntry) : List AICacheEntry :=
  if store.any (fun x => x.input_hash == e.input_hash) then
    store.map (fun x => if x.input_hash == e.input_hash then e else x)
  else store ++ [e]

/-- The substantive category picked by the anti-fallback reassignment. -/
def substantiveOf : Fin 3 → Category
  | 0 => Category.CLIENT
  | 1 => Category.PRESCRIBER
  | 2 => Category.SUPPLIER

/-- The anti-`A_QUALIFIER` rewrite applied before persisting an AI result
(`classify-ai`, "Prevent A_QUALIFIER unless truly necessary"). -/
def applyAntiFallback (pick : Fin 3) (cat : Category) (conf : Nat) (nr : Bool) :
    Category × Nat × Bool :=
  if cat = Category.A_QUALIFIER ∧ 30 < conf then
    (substantiveOf pick, min conf 50, true)
  else (cat, conf, nr)

/-- Replace the first entry whose `index` matches `rr.index` (the
`findIndex`-then-assign merge step of `classify-ai`); no match leaves the
list unchanged. -/
def overwriteOne (rs : List AIResult) (rr : AIResult) : List AIResult :=
  match rs with
  | [] => []
  | r :: rest => if r.index == rr.index then rr :: rest else r :: overwriteOne rest rr

/-- Merge the secondary-model results into the primary results, entry by
entry, as in the escalation block of `classify-ai`. -/
def mergeResults (orig retry : List AIResult) : List AIResult :=
  retry.foldl overwriteOne orig

/-- The `job_rows` update written per AI result by `classify-ai`. -/
structure AIRowWrite where
  rowId : Nat
  final_category : Category
  confidence : Nat
  reason : String
  public_signals_used : String
  needs_review : Bool
  classification_method : CMethod
  ai_used : Bool
  model_used : String
  ai_attempts : Nat
  row_status : RowStatus
deriving DecidableEq, Repr

/-- Build the row update for one AI result (anti-fallback rewrite included). -/
def writeFor (env : AIEnv) (model : String) (row : AIRow) (r : AIResult) : AIRowWrite :=
  let t := applyAntiFallback (env.pick r.index) r.final_category r.confidence r.needs_review
  { rowId := row.id
  , final_category := t.1
  , confidence := t.2.1
  , reason := r.reason
  , public_signals_used := r.public_signals_used
  , needs_review := t.2.2
  , classification_method :=
      match row.classification_method with
      | some CMethod.RULES => CMethod.HYBRID
      | _ => CMethod.AI
  , ai_used := true
  , model_used := model
  , ai_attempts := row.ai_attempts + 1
  , row_status := RowStatus.COMPLETED }

/-- The row writes a batch produces from a result list. -/
def batchWrites (env : AIEnv) (model : String) (batch : List AIRow)
    (results : List AIResult) : List AIRowWrite :=
  results.filterMap (fun r =>
    (batch.find? (fun row => row.row_index == r.index)).map
      (fun row => writeFor env model row r))

/-- How many rows of the batch become `ai_used = true` for the first time
when the given results are written (the quantity by which the database
trigger raises the job's `ai_rows` counter). -/
def newlyCount (batch : List AIRow) (results : List AIResult) : Nat :=
  (results.filterMap (fun r => batch.find? (fun row => row.row_index == r.index))).countP
    (fun row => !row.ai_used)

/-- Observable outcome of processing one batch inside `classify-ai`. -/
structure BatchOutcome where
  results : List AIResult
  model_used : String
  cacheHit : Bool
  primaryCalled : Bool
  escalatedContacts : Option (List AIContact)
  tokensDelta : Nat
  store : List AICacheEntry
  rowWrites : List AIRowWrite
  logs : List Severity
  newlyAied : Nat
deriving Repr

/-- One batch of the `classify-ai` loop: cache lookup by input hash; on miss
a primary-model call, the confidence-based escalation rule (re-submit the
strict subset of results below confidence 70 when it is non-empty and less
than half the batch), cache write-back, then the per-result row updates. -/
def processAIBatch (env : AIEnv) (lang : Language) (now expiresAt : Nat)
    (store : List AICacheEntry) (batch : List AIRow) : BatchOutcome :=
  let contacts := batch.map aiContactOf
  let inputHash := batchHash env lang contacts
  match aiCacheGet store inputHash now with
  | some rm =>
    { results := rm.1, model_used := rm.2, cacheHit := true, primaryCalled := false
    , escalatedContacts := none, tokensDelta := 0, store := store
    , rowWrites := batchWrites env rm.2 batch rm.1, logs := []
    , newlyAied := newlyCount batch rm.1 }
  | none =>
    let resp := env.classify true contacts lang
    let low := resp.results.filter (fun r => r.confidence < 70)
    let esc :=
      if 0 < low.length ∧ 2 * low.length < batch.length then
        let retryContacts := low.filterMap (fun r => contacts.find? (fun c => c.index == r.index))
        let retryResp := env.classify false retryContacts lang
        (mergeResults resp.results retryResp.results, some retryContacts,
          retryResp.tokens_used, [Severity.INFO, Severity.INFO])
      else (resp.results, none, 0, [])
    let store2 := aiCacheUpsert store ⟨inputHash, esc.1, resp.model_used, expiresAt⟩
    { results := esc.1, model_used := resp.model_used, cacheHit := false, primaryCalled := true
    , escalatedContacts := esc.2.1, tokensDelta := resp.tokens_used + esc.2.2.1
    , store := store2
    , rowWrites := batchWrites env resp.model_used batch esc.1
    , logs := [Severity.INFO] ++ esc.2.2.2
    , newlyAied := newlyCount batch esc.1 }

/-- Fuel-based batching helper (structural recursion so that concrete
instances evaluate). -/
def chunksAux (fuel n : Nat) (l : List α) : List (List α) :=
  match fuel with
  | 0 => []
  | fuel + 1 =>
    match l with
    | [] => []
    | _ => l.take n :: chunksAux fuel n (l.drop n)

/-- Split a list into consecutive batches of size `n` (the
`for (i = 0; i < rows.length; i += BATCH_SIZE)` slicing of `classify-ai`). -/
def chunks (n : Nat) (l : List α) : List (List α) :=
  chunksAux l.length n l

/-- The fields of a `jobs` record that `classify-ai` reads. -/
structure AIJob where
  ai_rows : Nat
  total_rows : Nat
  language : Language
  ai_tokens_estimate : Nat
deriving Repr

/-- The budget pre-check of `classify-ai`:
`(job.ai_rows / job.total_rows) * 100 >= MAX_AI_PERCENT` with JavaScript
division (`0/0` is NaN, so every comparison with it is false; `x/0` for
positive `x` is infinite, so the comparison is true). -/
def aiCapReached (maxAIPercent : Nat) (job : AIJob) : Bool :=
  if job.total_rows = 0 then decide (0 < job.ai_rows)
  else decide (maxAIPercent * job.total_rows ≤ 100 * job.ai_rows)

/-- A row write of the AI invocation: either a per-result update, or the
bulk `needs_review := true` update applied to every row of the job whose
`final_category` is null (no category is assigned by it). -/
inductive RowWrite where
  | ai (w : AIRowWrite)
  | bulkNeedsReview
deriving DecidableEq, Repr

/-- Accumulator of the `classify-ai` batch loop. `liveAiRows` tracks the
job's `ai_rows` metric as maintained by the `update_job_stats` database
trigger (count of rows with `ai_used = true`), which rises as the
invocation writes rows. `trace` records, per batch, that live count just
before the batch together with whether the batch issued a primary AI call. -/
structure AIAccum where
  store : List AICacheEntry
  liveAiRows : Nat
  primaryCalls : Nat
  secondaryCalls : Nat
  tokens : Nat
  cacheHits : Nat
  writes : List RowWrite
  logs : List Severity
  trace : List (Nat × Bool)
deriving Repr

/-- The batch loop of `classify-ai` (no budget re-check between batches). -/
def aiBatchesRun (env : AIEnv) (lang : Language) (now expiresAt : Nat) :
    List (List AIRow) → AIAccum → AIAccum
  | [], acc => acc
  | b :: rest, acc =>
    let o := processAIBatch env lang now expiresAt acc.store b
    aiBatchesRun env lang now expiresAt rest
      { store := o.store
      , liveAiRows := acc.liveAiRows + o.newlyAied
      , primaryCalls := acc.primaryCalls + (if o.primaryCalled then 1 else 0)
      , secondaryCalls := acc.secondaryCalls + (if o.escalatedContacts.isSome then 1 else 0)
      , tokens := acc.tokens + o.tokensDelta
      , cacheHits := acc.cacheHits + (if o.cacheHit then 1 else 0)
      , writes := acc.writes ++ o.rowWrites.map RowWrite.ai
      , logs := acc.logs ++ o.logs
      , trace := acc.trace ++ [(acc.liveAiRows, o.primaryCalled)] }

/-- Observable outcome of one invocation of the `classify-ai` edge function. -/
structure AIInvocationOutcome where
  primaryCalls : Nat
  secondaryCalls : Nat
  tokens : Nat
  cacheHits : Nat
  capReached : Bool
  logs : List Severity
  rowWrites : List RowWrite
  statusWrites : List JobStatus
  batchTrace : List (Nat × Bool)
  store : List AICacheEntry
deriving Repr

/-- One invocation of `classify-ai`: a single AI-usage cap check before any
rows are fetched (WARNING plus bulk needs-review update at or above the cap,
with the job left un-failed), otherwise the batch loop over batches of 20
followed by status `COMPLETED`. -/
def classifyAIInvocation (env : AIEnv) (maxAIPercent : Nat) (job : AIJob)
    (rows : List AIRow) (store : List AICacheEntry) (now expiresAt : Nat) :
    AIInvocationOutcome :=
  if aiCapReached maxAIPercent job then
    { primaryCalls := 0, secondaryCalls := 0, tokens := 0, cacheHits := 0
    , capReached := true, logs := [Severity.WARNING]
    , rowWrites := [RowWrite.bulkNeedsReview], statusWrites := []
    , batchTrace := [], store := store }
  else
    match rows with
    | [] =>
      { primaryCalls := 0, secondaryCalls := 0, tokens := 0, cacheHits := 0
      , capReached := false, logs := [Severity.INFO, Severity.INFO]
      , rowWrites := [], statusWrites := [JobStatus.AI_CLASSIFYING, JobStatus.COMPLETED]
      , batchTrace := [], store := store }
    | _ =>
      let acc := aiBatchesRun env job.language now expiresAt (chunks 20 rows)
        ⟨store, job.ai_rows, 0, 0, 0, 0, [], [], []⟩
      { primaryCalls := acc.primaryCalls
      , secondaryCalls := acc.secondaryCalls
      , tokens := acc.tokens
      , cacheHits := acc.cacheHits
      , capReached := false
      , logs := [Severity.INFO] ++ acc.logs ++ [Severity.SUCCESS]
      , rowWrites := acc.writes
      , statusWrites := [JobStatus.AI_CLASSIFYING, JobStatus.COMPLETED]
      , batchTrace := acc.trace
      , store := acc.store }

/-! ### Cache lemmas -/

lemma mem_cacheUpsert_key (store : List CacheEntry) (en : CacheEntry) :
    ∀ e ∈ cacheUpsert store en, e.cache_key = en.cache_key → e = en := by
  intro e he hk
  unfold cacheUpsert at he
  by_cases hany : store.any (fun x => x.cache_key == en.cache_key)
  · rw [if_pos hany] at he
    rcases List.mem_map.mp he with ⟨x, _, hxe⟩
    by_cases hxk : x.cache_key == en.cache_key
    · rw [if_pos hxk] at hxe
      exact hxe.symm
    · rw [if_neg hxk] at hxe
      subst hxe
      exact absurd (by simp [hk]) hxk
  · rw [if_neg hany] at he
    rcases List.mem_append.mp he with h | h
    · exact absurd (List.any_eq_true.mpr ⟨e, h, by simp [hk]⟩) hany
    · simpa using h

lemma self_mem_cacheUpsert (store : List CacheEntry) (en : CacheEntry) :
    en ∈ cacheUpsert store en := by
  unfold cacheUpsert
  by_cases hany : store.any (fun x => x.cache_key == en.cache_key)
  · rw [if_pos hany]
    rcases List.any_eq_true.mp hany with ⟨x, hx, hxk⟩
    exact List.mem_map.mpr ⟨x, hx, by rw [if_pos hxk]⟩
  · rw [if_neg hany]
    simp

lemma cacheGet_upsert (store : List CacheEntry) (en : CacheEntry) (now : Nat) :
    cacheGet (cacheUpsert store en) en.cache_key now =
      if now < en.expires_at then some en.enrichment_data else none := by
  by_cases hex : now < en.expires_at
  · rw [if_pos hex]
    unfold cacheGet
    rcases hf : (cacheUpsert store en).find?
        (fun e => e.cache_key == en.cache_key && decide (now < e.expires_at)) with _ | f
    · exfalso
      have := List.find?_eq_none.mp hf en (self_mem_cacheUpsert store en)
      simp [hex] at this
    · have hmem := List.mem_of_find?_eq_some hf
      have hpred := List.find?_some hf
      have hkey : f.cache_key = en.cache_key := by
        have := (Bool.and_eq_true _ _).mp hpred
        simpa using this.1
      have hfe : f = en := mem_cacheUpsert_key store en f hmem hkey
      rw [hf, hfe]
      rfl
  · rw [if_neg hex]
    unfold cacheGet
    have : (cacheUpsert store en).find?
        (fun e => e.cache_key == en.cache_key && decide (now < e.expires_at)) = none := by
      rw [List.find?_eq_none]
      intro e he
      by_cases hk : e.cache_key = en.cache_key
      · have : e = en := mem_cacheUpsert_key store en e he hk
        subst this
        simp [hex]
      · simp [hk]
    rw [this]
    rfl

lemma processEnrichRow_delta_le_one (env : EnrichEnv) (depth now expiresAt : Nat)
    (store : List CacheEntry) (n : NormalizedContact) :
    (processEnrichRow env depth now expiresAt store n).searchCallsDelta ≤ 1 := by
  rcases h : cacheGet store (createCacheKey n) now with _ | d <;>
    simp [processEnrichRow, h]

/-! ### C10 -/

/-- C10: in the rules stage, a row whose contact makes `classifyByRules`
return null but `applyFieldHeuristics` return a hint is persisted with the
hint's category, confidence exactly 60, `needs_review = true`,
`classification_method = RULES`, `ai_used = false`, and `row_status`
left at `PENDING`. -/
theorem rules_stage_heuristic_branch (n : NormalizedContact) (language : Language)
    (RAT RMT : Nat) (h : CategoryScore)
    (hr : classifyByRules n language RAT RMT = none)
    (hh : applyFieldHeuristics n = some h) :
    classifyRulesRow n language RAT RMT =
      some
        { final_category := h.category
        , confidence := 60
        , reason := none
        , public_signals := String.intercalate "; " h.signals
        , needs_review := true
        , classification_method := CMethod.RULES
        , ai_used := false
        , row_status := RowStatus.PENDING } := by
  simp only [classifyRulesRow, hr, hh]

/-- Concrete contact for the C10 witness. -/
def c10contact : NormalizedContact :=
  { nom_complet := "zzz", email := some "info@clinic.fr" }

/-- Witness for C10 at a concrete contact. -/
theorem rules_stage_heuristic_branch_witness :
    classifyRulesRow c10contact Language.en 80 15 =
      some
        { final_category := Category.PRESCRIBER
        , confidence := 60
        , reason := none
        , public_signals := String.intercalate "; " ["Medical domain detected"]
        , needs_review := true
        , classification_method := CMethod.RULES
        , ai_used := false
        , row_status := RowStatus.PENDING } :=
  rules_stage_heuristic_branch c10contact Language.en 80 15
    ⟨Category.PRESCRIBER, 10, ["Medical domain detected"]⟩ (by decide) (by decide)

/-! ### Concrete inputs used by witnesses and counterexamples -/

/-- An environment with no search/places API keys configured and trivially
failing fetch oracles. -/
def envNoKeys : EnrichEnv :=
  { bingKey := false, mapsKey := false
  , webSearch := fun _ => some [], mapsLookup := fun _ => some []
  , siteFetch := fun _ => some (none, none) }

/-- Concrete contact whose cache key is `"acme::"`. -/
def c8contact : NormalizedContact := { nom_complet := "acme" }

/-! ### C6 -/

/-- C6: for both cache namespaces, a read of a key whose stored
`expires_at` is in the past behaves exactly as a miss — the payload is
never returned and the caller proceeds to the real work (the enrichment
lookup, respectively the primary-model call). -/
theorem cache_expired_is_miss :
    (∀ (store : List CacheEntry) (key : String) (now : Nat),
      (∀ e ∈ store, e.cache_key = key → e.expires_at < now) →
      cacheGet store key now = none) ∧
    (∀ (store : List AICacheEntry) (h : Int) (now : Nat),
      (∀ e ∈ store, e.input_hash = h → e.expires_at < now) →
      aiCacheGet store h now = none) ∧
    (∀ (env : EnrichEnv) (depth now expiresAt : Nat) (store : List CacheEntry)
      (n : NormalizedContact),
      cacheGet store (createCacheKey n) now = none →
      (processEnrichRow env depth now expiresAt store n).cacheHit = false ∧
      (processEnrichRow env depth now expiresAt store n).searchCallsDelta = 1) ∧
    (∀ (env : AIEnv) (lang : Language) (now expiresAt : Nat) (store : List AICacheEntry)
      (batch : List AIRow),
      aiCacheGet store (batchHash env lang (batch.map aiContactOf)) now = none →
      (processAIBatch env lang now expiresAt store batch).primaryCalled = true) := by
  refine ⟨?_, ?_, ?_, ?_⟩
  · intro store key now hexp
    have hnone : store.find? (fun e => e.cache_key == key && decide (now < e.expires_at)) = none := by
      rw [List.find?_eq_none]
      intro e he
      by_cases hk : e.cache_key = key
      · have := hexp e he hk
        simp [hk]
        omega
      · simp [hk]
    simp [cacheGet, hnone]
  · intro store h now hexp
    have hnone : store.find? (fun e => e.input_hash == h && decide (now < e.expires_at)) = none := by
      rw [List.find?_eq_none]
      intro e he
      by_cases hk : e.input_hash = h
      · have := hexp e he hk
        simp [hk]
        omega
      · simp [hk]
    simp [aiCacheGet, hnone]
  · intro env depth now expiresAt store n hmiss
    simp [processEnrichRow, hmiss]
  · intro env lang now expiresAt store batch hmiss
    simp [processAIBatch, hmiss]

/-- Expired enrichment-cache entry for the C6 witness. -/
def c6entry : CacheEntry := { cache_key := "k", enrichment_data := {}, expires_at := 5 }

/-- Expired AI-cache entry for the C6 witness. -/
def c6ai : AICacheEntry := { input_hash := 3, results := [], model_used := "m", expires_at := 5 }

/-- Trivial AI environment for concrete evaluations. -/
def aiEnvTrivial : AIEnv :=
  { classify := fun _ cs _ =>
      { results := cs.map (fun c =>
          { index := c.index, final_category := Category.CLIENT, confidence := 100
          , reason := "", public_signals_used := "", needs_review := false })
      , model_used := "m", tokens_used := 0 }
  , serialize := fun _ => "s", pick := fun _ => 0 }

/-- Witness for C6 at concrete stores and times. -/
theorem cache_expired_is_miss_witness :
    cacheGet [c6entry] "k" 10 = none ∧
    aiCacheGet [c6ai] 3 10 = none ∧
    ((processEnrichRow envNoKeys 1 10 20 [c6entry] c8contact).cacheHit = false ∧
      (processEnrichRow envNoKeys 1 10 20 [c6entry] c8contact).searchCallsDelta = 1) ∧
    (processAIBatch aiEnvTrivial Language.en 10 20 [c6ai] []).primaryCalled = true :=
  ⟨cache_expired_is_miss.1 [c6entry] "k" 10 (by decide),
    cache_expired_is_miss.2.1 [c6ai] 3 10 (by decide),
    cache_expired_is_miss.2.2.1 envNoKeys 1 10 20 [c6entry] c8contact (by decide),
    cache_expired_is_miss.2.2.2 aiEnvTrivial Language.en 10 20 [c6ai] [] (by decide)⟩

/-! ### C7 -/

/-- C7: a contact with an unexpired enrichment cache entry for its cache key
is served from the cache — zero external calls, no `searchCalls` increment,
payload identical to the cached one; and after a first (cache-missing)
enrichment of a contact, a second enrichment of the same contact before the
entry expires is served that way from the written-back entry. -/
theorem enrich_cache_idempotent (env : EnrichEnv) (depth now expiresAt : Nat)
    (store : List CacheEntry) (n : NormalizedContact) :
    (∀ d, cacheGet store (createCacheKey n) now = some d →
      (processEnrichRow env depth now expiresAt store n).data = some d ∧
      (processEnrichRow env depth now expiresAt store n).networkCalls = 0 ∧
      (processEnrichRow env depth now expiresAt store n).searchCallsDelta = 0 ∧
      (processEnrichRow env depth now expiresAt store n).store = store) ∧
    (∀ (env2 : EnrichEnv) (depth2 now2 expiresAt2 : Nat) (d : EnrichmentData),
      cacheGet store (createCacheKey n) now = none →
      (processEnrichRow env depth now expiresAt store n).data = some d →
      now2 < expiresAt →
      (processEnrichRow env2 depth2 now2 expiresAt2
        (processEnrichRow env depth now expiresAt store n).store n).data = some d ∧
      (processEnrichRow env2 depth2 now2 expiresAt2
        (processEnrichRow env depth now expiresAt store n).store n).networkCalls = 0 ∧
      (processEnrichRow env2 depth2 now2 expiresAt2
        (processEnrichRow env depth now expiresAt store n).store n).searchCallsDelta = 0) := by
  constructor
  · intro d hhit
    simp [processEnrichRow, hhit]
  · intro env2 depth2 now2 expiresAt2 d hmiss hdata hexp
    have hdata2 : (enrichContact env n depth).1 = some d := by
      simpa [processEnrichRow, hmiss] using hdata
    have hstore : (processEnrichRow env depth now expiresAt store n).store =
        cacheUpsert store ⟨createCacheKey n, d, expiresAt⟩ := by
      simp [processEnrichRow, hmiss, hdata2]
    rw [hstore]
    have hget : cacheGet (cacheUpsert store ⟨createCacheKey n, d, expiresAt⟩)
        (createCacheKey n) now2 = some d := by
      have := cacheGet_upsert store ⟨createCacheKey n, d, expiresAt⟩ now2
      simpa [hexp] using this
    simp [processEnrichRow, hget]

/-- Unexpired cache entry at `c8contact`'s key, for the C7 witness. -/
def c7entry : CacheEntry := { cache_key := "acme::", enrichment_data := {}, expires_at := 100 }

/-- Witness for C7 at a concrete contact, store and times. -/
theorem enrich_cache_idempotent_witness :
    ((processEnrichRow envNoKeys 1 10 50 [c7entry] c8contact).data = some {} ∧
      (processEnrichRow envNoKeys 1 10 50 [c7entry] c8contact).networkCalls = 0 ∧
      (processEnrichRow envNoKeys 1 10 50 [c7entry] c8contact).searchCallsDelta = 0 ∧
      (processEnrichRow envNoKeys 1 10 50 [c7entry] c8contact).store = [c7entry]) ∧
    ((processEnrichRow envNoKeys 1 3 50
        (processEnrichRow envNoKeys 1 2 50 [] c8contact).store c8contact).data =
      some { signals_summary := some "" } ∧
      (processEnrichRow envNoKeys 1 3 50
        (processEnrichRow envNoKeys 1 2 50 [] c8contact).store c8contact).networkCalls = 0 ∧
      (processEnrichRow envNoKeys 1 3 50
        (processEnrichRow envNoKeys 1 2 50 [] c8contact).store c8contact).searchCallsDelta = 0) :=
  ⟨(enrich_cache_idempotent envNoKeys 1 10 50 [c7entry] c8contact).1 {} (by decide),
    (enrich_cache_idempotent envNoKeys 1 2 50 [] c8contact).2 envNoKeys 1 3 50
      { signals_summary := some "" } (by decide) (by decide) (by decide)⟩

/-! ### C8 (corrected) -/

/-- C8 counterexample: with no search API key configured, a cache-miss row
performs zero genuine external calls yet still increments the
per-invocation `searchCalls` counter, refuting "incremented only when a
genuine external call was made". -/
theorem searchcalls_without_external_call :
    (processEnrichRow envNoKeys 1 0 100 [] c8contact).searchCallsDelta = 1 ∧
    (processEnrichRow envNoKeys 1 0 100 [] c8contact).networkCalls = 0 := by
  decide

/-- C8 amended: a cache hit increments nothing and performs no network
work; every cache-miss row increments the counter by exactly one,
regardless of how many (possibly zero) genuine external calls the lookup
performed. -/
theorem searchcalls_per_cache_miss (env : EnrichEnv) (depth now expiresAt : Nat)
    (store : List CacheEntry) (n : NormalizedContact) :
    (∀ d, cacheGet store (createCacheKey n) now = some d →
      (processEnrichRow env depth now expiresAt store n).searchCallsDelta = 0 ∧
      (processEnrichRow env depth now expiresAt store n).networkCalls = 0) ∧
    (cacheGet store (createCacheKey n) now = none →
      (processEnrichRow env depth now expiresAt store n).searchCallsDelta = 1) := by
  constructor
  · intro d hhit
    simp [processEnrichRow, hhit]
  · intro hmiss
    simp [processEnrichRow, hmiss]

/-- Witness for the amended C8 at concrete inputs. -/
theorem searchcalls_per_cache_miss_witness :
    ((processEnrichRow envNoKeys 1 10 50 [c7entry] c8contact).searchCallsDelta = 0 ∧
      (processEnrichRow envNoKeys 1 10 50 [c7entry] c8contact).networkCalls = 0) ∧
    (processEnrichRow envNoKeys 1 0 100 [] c8contact).searchCallsDelta = 1 :=
  ⟨(searchcalls_per_cache_miss envNoKeys 1 10 50 [c7entry] c8contact).1 {} (by decide),
    (searchcalls_per_cache_miss envNoKeys 1 0 100 [] c8contact).2 (by decide)⟩

/-! ### C9 -/

/-- C9: two contacts sharing the same email domain, city and country (after
case normalization) get identical enrichment cache keys even with different
names, so once the first contact's result is cached and unexpired, the
second contact is served entirely from cache with zero external calls. -/
theorem cache_key_shared_domain (c1 c2 : NormalizedContact) (d : String)
    (h1 : getEmailDomain c1.email = some d)
    (h2 : getEmailDomain c2.email = some d)
    (hc : jsTrim (jsToLower (c1.ville.getD "")) = jsTrim (jsToLower (c2.ville.getD "")))
    (hp : jsTrim (jsToLower (c1.pays.getD "")) = jsTrim (jsToLower (c2.pays.getD ""))) :
    createCacheKey c1 = createCacheKey c2 ∧
    (∀ (env : EnrichEnv) (depth now expiresAt : Nat) (store : List CacheEntry)
      (dd : EnrichmentData),
      cacheGet store (createCacheKey c1) now = some dd →
      (processEnrichRow env depth now expiresAt store c2).networkCalls = 0 ∧
      (processEnrichRow env depth now expiresAt store c2).searchCallsDelta = 0 ∧
      (processEnrichRow env depth now expiresAt store c2).cacheHit = true ∧
      (processEnrichRow env depth now expiresAt store c2).data = some dd) := by
  have hkey : createCacheKey c1 = createCacheKey c2 := by
    simp [createCacheKey, h1, h2, hc, hp]
  refine ⟨hkey, ?_⟩
  intro env depth now expiresAt store dd hhit
  rw [hkey] at hhit
  simp [processEnrichRow, hhit]

/-- First contact of the C9 witness. -/
def c9a : NormalizedContact :=
  { nom_complet := "alice", email := some "a@acme.com", ville := some "Paris" }

/-- Second contact of the C9 witness (different name, same normalized
domain/city/country). -/
def c9b : NormalizedContact :=
  { nom_complet := "bob", email := some "b@ACME.com", ville := some "paris" }

/-- Unexpired cache entry at the shared key of the C9 witness contacts. -/
def c9entry : CacheEntry :=
  { cache_key := "acme.com:paris:", enrichment_data := { domain := some "acme.com" }
  , expires_at := 100 }

/-- Witness for C9 at two concrete contacts differing only in name and case. -/
theorem cache_key_shared_domain_witness :
    createCacheKey c9a = createCacheKey c9b ∧
    ((processEnrichRow envNoKeys 1 10 50 [c9entry] c9b).networkCalls = 0 ∧
      (processEnrichRow envNoKeys 1 10 50 [c9entry] c9b).searchCallsDelta = 0 ∧
      (processEnrichRow envNoKeys 1 10 50 [c9entry] c9b).cacheHit = true ∧
      (processEnrichRow envNoKeys 1 10 50 [c9entry] c9b).data =
        some { domain := some "acme.com" }) :=
  ⟨(cache_key_shared_domain c9a c9b "acme.com" (by decide) (by decide) (by decide) (by decide)).1,
    (cache_key_shared_domain c9a c9b "acme.com" (by decide) (by decide) (by decide)
      (by decide)).2 envNoKeys 1 10 50 [c9entry] { domain := some "acme.com" } (by decide)⟩

/-! ### C4 -/

lemma enrichLoop_calls_le (env : EnrichEnv) (depth now expiresAt maxCalls jobCount : Nat)
    (rows : List NormalizedContact) (st : EnrichLoopState)
    (h : st.searchCalls ≤ maxCalls - jobCount) :
    (enrichLoop env depth now expiresAt maxCalls jobCount rows st).searchCalls ≤
      maxCalls - jobCount := by
  induction rows generalizing st with
  | nil => simpa [enrichLoop] using h
  | cons n rest ih =>
    rw [enrichLoop]
    by_cases hb : maxCalls - jobCount ≤ st.searchCalls
    · rw [if_pos hb]
      simpa using h
    · rw [if_neg hb]
      apply ih
      have hd := processEnrichRow_delta_le_one env depth now expiresAt st.store n
      simp only []
      omega

/-- C4: an enrichment invocation of a job already at or above
`MAX_SEARCH_CALLS_PER_JOB` performs no external call, logs a WARNING and
returns with the counter untouched; and no invocation ever pushes the
job's `search_calls_count` past the cap. -/
theorem enrich_budget_cap (env : EnrichEnv) (depth now expiresAt maxCalls jobCount : Nat)
    (rows : List NormalizedContact) (store : List CacheEntry) :
    (maxCalls ≤ jobCount →
      (enrichInvocation env depth now expiresAt maxCalls jobCount rows store).networkCalls = 0 ∧
      (enrichInvocation env depth now expiresAt maxCalls jobCount rows store).search_calls_count
        = jobCount ∧
      (enrichInvocation env depth now expiresAt maxCalls jobCount rows store).earlyReturn = true ∧
      Severity.WARNING ∈
        (enrichInvocation env depth now expiresAt maxCalls jobCount rows store).logs) ∧
    (enrichInvocation env depth now expiresAt maxCalls jobCount rows store).search_calls_count ≤
      max maxCalls jobCount := by
  constructor
  · intro hcap
    simp [enrichInvocation, hcap]
  · by_cases hcap : maxCalls ≤ jobCount
    · simp [enrichInvocation, hcap]
    · rcases rows with _ | ⟨n, rest⟩
      · simp [enrichInvocation, hcap]
      · have hloop := enrichLoop_calls_le env depth now expiresAt maxCalls jobCount
          (n :: rest) ⟨0, 0, 0, 0, store, []⟩ (by simp)
        have heq : (enrichInvocation env depth now expiresAt maxCalls jobCount
            (n :: rest) store).search_calls_count =
            jobCount + (enrichLoop env depth now expiresAt maxCalls jobCount
              (n :: rest) ⟨0, 0, 0, 0, store, []⟩).searchCalls := by
          simp [enrichInvocation, hcap]
        rw [heq]
        omega

/-- Witness for C4 at a concrete capped job and a concrete under-cap run. -/
theorem enrich_budget_cap_witness :
    ((enrichInvocation envNoKeys 1 0 50 3 3 [c8contact] []).networkCalls = 0 ∧
      (enrichInvocation envNoKeys 1 0 50 3 3 [c8contact] []).search_calls_count = 3 ∧
      (enrichInvocation envNoKeys 1 0 50 3 3 [c8contact] []).earlyReturn = true ∧
      Severity.WARNING ∈ (enrichInvocation envNoKeys 1 0 50 3 3 [c8contact] []).logs) ∧
    (enrichInvocation envNoKeys 1 0 50 3 1 [c8contact] []).search_calls_count ≤ max 3 1 :=
  ⟨(enrich_budget_cap envNoKeys 1 0 50 3 3 [c8contact] []).1 (by decide),
    (enrich_budget_cap envNoKeys 1 0 50 3 1 [c8contact] []).2⟩

/-! ### C3 -/

lemma processAIBatch_rowWrites (env : AIEnv) (lang : Language) (now expiresAt : Nat)
    (store : List AICacheEntry) (batch : List AIRow) :
    (processAIBatch env lang now expiresAt store batch).rowWrites =
      batchWrites env (processAIBatch env lang now expiresAt store batch).model_used batch
        (processAIBatch env lang now expiresAt store batch).results := by
  rcases h : aiCacheGet store (batchHash env lang (batch.map aiContactOf)) now with _ | rm <;>
    simp [processAIBatch, h]

/-- C3: an AI result with the fallback category `A_QUALIFIER` and confidence
above 30 is never persisted as the fallback: the written row carries one of
CLIENT/PRESCRIBER/SUPPLIER, confidence `min original 50`, and
`needs_review = true`. -/
theorem ai_antifallback_never_persisted (env : AIEnv) (lang : Language)
    (now expiresAt : Nat) (store : List AICacheEntry) (batch : List AIRow)
    (r : AIResult) (row : AIRow)
    (hr : r ∈ (processAIBatch env lang now expiresAt store batch).results)
    (hcat : r.final_category = Category.A_QUALIFIER)
    (hconf : 30 < r.confidence)
    (hrow : batch.find? (fun x => x.row_index == r.index) = some row) :
    writeFor env (processAIBatch env lang now expiresAt store batch).model_used row r ∈
      (processAIBatch env lang now expiresAt store batch).rowWrites ∧
    (writeFor env (processAIBatch env lang now expiresAt store batch).model_used row
      r).final_category ≠ Category.A_QUALIFIER ∧
    ((writeFor env (processAIBatch env lang now expiresAt store batch).model_used row
        r).final_category = Category.CLIENT ∨
      (writeFor env (processAIBatch env lang now expiresAt store batch).model_used row
        r).final_category = Category.PRESCRIBER ∨
      (writeFor env (processAIBatch env lang now expiresAt store batch).model_used row
        r).final_category = Category.SUPPLIER) ∧
    (writeFor env (processAIBatch env lang now expiresAt store batch).model_used row
      r).confidence = min r.confidence 50 ∧
    (writeFor env (processAIBatch env lang now expiresAt store batch).model_used row
      r).needs_review = true := by
  have hcond : r.final_category = Category.A_QUALIFIER ∧ 30 < r.confidence := ⟨hcat, hconf⟩
  have hw : ∀ model, (writeFor env model row r).final_category =
      substantiveOf (env.pick r.index) ∧
      (writeFor env model row r).confidence = min r.confidence 50 ∧
      (writeFor env model row r).needs_review = true := by
    intro model
    simp [writeFor, applyAntiFallback, hcond]
  refine ⟨?_, ?_, ?_, ?_, ?_⟩
  · rw [processAIBatch_rowWrites]
    exact List.mem_filterMap.mpr ⟨r, hr, by rw [hrow]; rfl⟩
  · rw [(hw _).1]
    rcases hp : env.pick r.index with ⟨v, hv⟩
    interval_cases v <;> simp [substantiveOf]
  · rw [(hw _).1]
    rcases hp : env.pick r.index with ⟨v, hv⟩
    interval_cases v <;> simp [substantiveOf]
  · exact (hw _).2.1
  · exact (hw _).2.2

/-- Row for the C3 witness. -/
def c3row : AIRow :=
  { id := 7, row_index := 0, normalized := { nom_complet := "x" }, enrichment := none
  , classification_method := none, ai_used := false, ai_attempts := 0
  , final_category := none, confidence := none, needs_review := false }

/-- AI environment for the C3 witness: the primary model answers the
fallback category at confidence 80. -/
def c3env : AIEnv :=
  { classify := fun _ cs _ =>
      { results := cs.map (fun c =>
          { index := c.index, final_category := Category.A_QUALIFIER, confidence := 80
          , reason := "", public_signals_used := "", needs_review := false })
      , model_used := "m", tokens_used := 0 }
  , serialize := fun _ => "s", pick := fun _ => 0 }

/-- The fallback result the C3 witness environment produces. -/
def c3result : AIResult :=
  { index := 0, final_category := Category.A_QUALIFIER, confidence := 80
  , reason := "", public_signals_used := "", needs_review := false }

/-- Witness for C3 at a concrete batch. -/
theorem ai_antifallback_never_persisted_witness :
    writeFor c3env (processAIBatch c3env Language.en 0 10 [] [c3row]).model_used c3row
      c3result ∈ (processAIBatch c3env Language.en 0 10 [] [c3row]).rowWrites ∧
    (writeFor c3env (processAIBatch c3env Language.en 0 10 [] [c3row]).model_used c3row
      c3result).final_category ≠ Category.A_QUALIFIER ∧
    (writeFor c3env (processAIBatch c3env Language.en 0 10 [] [c3row]).model_used c3row
      c3result).confidence = min c3result.confidence 50 ∧
    (writeFor c3env (processAIBatch c3env Language.en 0 10 [] [c3row]).model_used c3row
      c3result).needs_review = true := by
  have h := ai_antifallback_never_persisted c3env Language.en 0 10 [] [c3row] c3result c3row
    (by decide) (by decide) (by decide) (by decide)
  exact ⟨h.1, h.2.1, h.2.2.2.1, h.2.2.2.2⟩

/-! ### C2 -/

/-- The primary-model results of a batch (claim-side shorthand). -/
def primaryResultsOf (env : AIEnv) (lang : Language) (batch : List AIRow) : List AIResult :=
  (env.classify true (batch.map aiContactOf) lang).results

/-- The primary results with confidence below 70 (claim-side shorthand). -/
def lowConfOf (env : AIEnv) (lang : Language) (batch : List AIRow) : List AIResult :=
  (primaryResultsOf env lang batch).filter (fun r => r.confidence < 70)

lemma overwriteOne_length (P : List AIResult) (s : AIResult) :
    (overwriteOne P s).length = P.length := by
  induction P with
  | nil => rfl
  | cons r rest ih =>
    by_cases h : r.index == s.index <;> simp [overwriteOne, h, ih]

lemma overwriteOne_index_map (P : List AIResult) (s : AIResult) :
    (overwriteOne P s).map (fun r => r.index) = P.map (fun r => r.index) := by
  induction P with
  | nil => rfl
  | cons r rest ih =>
    by_cases h : r.index == s.index
    · have hre : r.index = s.index := by simpa using h
      simp [overwriteOne, h, hre]
    · simp [overwriteOne, h, ih]

lemma overwriteOne_getElem? (P : List AIResult) (s : AIResult)
    (hN : (P.map (fun r => r.index)).Nodup) (k : Nat) :
    (overwriteOne P s)[k]? =
      (P[k]?).map (fun r => if r.index = s.index then s else r) := by
  induction P generalizing k with
  | nil => simp [overwriteOne]
  | cons r rest ih =>
    rw [List.map_cons, List.nodup_cons] at hN
    by_cases h : r.index == s.index
    · have hre : r.index = s.index := by simpa using h
      rcases k with _ | k
      · simp [overwriteOne, h, hre]
      · rw [show overwriteOne (r :: rest) s = s :: rest by simp [overwriteOne, h]]
        rw [List.getElem?_cons_succ, List.getElem?_cons_succ]
        rcases ht : rest[k]? with _ | t
        · simp
        · have htm : t ∈ rest := List.mem_iff_getElem?.mpr ⟨k, ht⟩
          have hne : t.index ≠ s.index := by
            intro hcontra
            exact hN.1 (by rw [hre, ← hcontra]; exact List.mem_map.mpr ⟨t, htm, rfl⟩)
          simp [hne]
    · have hre : r.index ≠ s.index := by simpa using h
      rcases k with _ | k
      · simp [overwriteOne, h, hre]
      · rw [show overwriteOne (r :: rest) s = r :: overwriteOne rest s by
          simp [overwriteOne, h]]
        rw [List.getElem?_cons_succ, List.getElem?_cons_succ]
        exact ih hN.2 k

/-- The merge step of the escalation block overwrites, entry by entry, the
primary result with the secondary result carrying the same row index, and
leaves every other entry unchanged. -/
lemma mergeResults_getElem? (P S : List AIResult)
    (hP : (P.map (fun r => r.index)).Nodup) (hS : (S.map (fun r => r.index)).Nodup)
    (k : Nat) :
    (mergeResults P S)[k]? =
      (P[k]?).map (fun r => (S.find? (fun t => t.index == r.index)).getD r) := by
  induction S generalizing P with
  | nil =>
    show P[k]? = _
    rcases P[k]? with _ | r <;> simp
  | cons s S ih =>
    rw [List.map_cons, List.nodup_cons] at hS
    have hP' : ((overwriteOne P s).map (fun r => r.index)).Nodup := by
      rw [overwriteOne_index_map]; exact hP
    have hmain : (mergeResults P (s :: S))[k]? =
        ((overwriteOne P s)[k]?).map
          (fun r => (S.find? (fun t => t.index == r.index)).getD r) :=
      ih (overwriteOne P s) hP' hS.2
    rw [hmain, overwriteOne_getElem? P s hP k]
    rcases hr : P[k]? with _ | r
    · simp
    · simp only [Option.map_some, Option.map_map, Function.comp]
      by_cases hh : r.index = s.index
      · have hsnot : S.find? (fun t => t.index == s.index) = none := by
          rw [List.find?_eq_none]
          intro t ht hbeq
          exact hS.1 (by
            rw [← (by simpa using hbeq : t.index = s.index)]
            exact List.mem_map.mpr ⟨t, ht, rfl⟩)
        have hhead : (s :: S).find? (fun t => t.index == r.index) = some s :=
          List.find?_cons_of_pos _ (by simp [hh])
        simp [hh, hhead, hsnot]
      · have hhead : (s :: S).find? (fun t => t.index == r.index) =
            S.find? (fun t => t.index == r.index) :=
          List.find?_cons_of_neg _ (by simp [Ne.symm hh])
        simp [hh, hhead]

lemma retry_indices (contacts : List AIContact) (low : List AIResult)
    (h : ∀ r ∈ low, ∃ c ∈ contacts, c.index = r.index) :
    (low.filterMap (fun r => contacts.find? (fun c => c.index == r.index))).map
      (fun c => c.index) = low.map (fun r => r.index) := by
  induction low with
  | nil => simp
  | cons r rest ih =>
    obtain ⟨c, hc, hce⟩ := h r (List.mem_cons_self r rest)
    have hfs : (contacts.find? (fun c => c.index == r.index)).isSome :=
      List.find?_isSome.mpr ⟨c, hc, by simp [hce]⟩
    obtain ⟨c0, hc0⟩ := Option.isSome_iff_exists.mp hfs
    have hp : c0.index = r.index := by simpa using List.find?_some hc0
    simp only [List.filterMap_cons, hc0, List.map_cons]
    rw [ih (fun x hx => h x (List.mem_cons_of_mem r hx))]
    simp [hp]

/-- C2: after the primary-model call of a cache-missing batch, exactly the
subset of results with confidence below 70 is re-submitted to the secondary
model when that subset is non-empty and strictly smaller than half the
batch, and the returned entries overwrite the corresponding entries of the
batch result; otherwise no secondary call is made and the primary results
are kept unchanged. -/
theorem ai_escalation_rule (env : AIEnv) (lang : Language) (now expiresAt : Nat)
    (store : List AICacheEntry) (batch : List AIRow)
    (hmiss : aiCacheGet store (batchHash env lang (batch.map aiContactOf)) now = none) :
    (processAIBatch env lang now expiresAt store batch).primaryCalled = true ∧
    ((processAIBatch env lang now expiresAt store batch).escalatedContacts.isSome ↔
      (0 < (lowConfOf env lang batch).length ∧
        2 * (lowConfOf env lang batch).length < batch.length)) ∧
    (∀ l, (processAIBatch env lang now expiresAt store batch).escalatedContacts = some l →
      ((∀ r ∈ lowConfOf env lang batch, ∃ c ∈ batch.map aiContactOf, c.index = r.index) →
        l.map (fun c => c.index) = (lowConfOf env lang batch).map (fun r => r.index)) ∧
      (processAIBatch env lang now expiresAt store batch).results =
        mergeResults (primaryResultsOf env lang batch) (env.classify false l lang).results) ∧
    ((processAIBatch env lang now expiresAt store batch).escalatedContacts = none →
      (processAIBatch env lang now expiresAt store batch).results =
        primaryResultsOf env lang batch) ∧
    (∀ P S : List AIResult,
      (P.map (fun r => r.index)).Nodup → (S.map (fun r => r.index)).Nodup →
      ∀ k : Nat, (mergeResults P S)[k]? =
        (P[k]?).map (fun r => (S.find? (fun t => t.index == r.index)).getD r)) := by
  by_cases hcond : 0 < (lowConfOf env lang batch).length ∧
      2 * (lowConfOf env lang batch).length < batch.length
  · have hred : processAIBatch env lang now expiresAt store batch =
        { results := mergeResults (primaryResultsOf env lang batch)
            (env.classify false ((lowConfOf env lang batch).filterMap
              (fun r => (batch.map aiContactOf).find? (fun c => c.index == r.index)))
              lang).results
        , model_used := (env.classify true (batch.map aiContactOf) lang).model_used
        , cacheHit := false, primaryCalled := true
        , escalatedContacts := some ((lowConfOf env lang batch).filterMap
            (fun r => (batch.map aiContactOf).find? (fun c => c.index == r.index)))
        , tokensDelta := (env.classify true (batch.map aiContactOf) lang).tokens_used +
            (env.classify false ((lowConfOf env lang batch).filterMap
              (fun r => (batch.map aiContactOf).find? (fun c => c.index == r.index)))
              lang).tokens_used
        , store := aiCacheUpsert store
            ⟨batchHash env lang (batch.map aiContactOf),
              mergeResults (primaryResultsOf env lang batch)
                (env.classify false ((lowConfOf env lang batch).filterMap
                  (fun r => (batch.map aiContactOf).find? (fun c => c.index == r.index)))
                  lang).results,
              (env.classify true (batch.map aiContactOf) lang).model_used, expiresAt⟩
        , rowWrites := batchWrites env
            (env.classify true (batch.map aiContactOf) lang).model_used batch
            (mergeResults (primaryResultsOf env lang batch)
              (env.classify false ((lowConfOf env lang batch).filterMap
                (fun r => (batch.map aiContactOf).find? (fun c => c.index == r.index)))
                lang).results)
        , logs := [Severity.INFO, Severity.INFO, Severity.INFO]
        , newlyAied := newlyCount batch
            (mergeResults (primaryResultsOf env lang batch)
              (env.classify false ((lowConfOf env lang batch).filterMap
                (fun r => (batch.map aiContactOf).find? (fun c => c.index == r.index)))
                lang).results) } := by
      simp only [processAIBatch, hmiss, lowConfOf, primaryResultsOf]
      rw [if_pos (by simpa [lowConfOf, primaryResultsOf] using hcond)]
      rfl
    refine ⟨by rw [hred], ?_, ?_, ?_, ?_⟩
    · rw [hred]
      simpa using hcond
    · intro l hl
      rw [hred] at hl
      simp only at hl
      obtain rfl := Option.some.injEq _ _ ▸ hl
      constructor
      · intro hidx
        exact retry_indices (batch.map aiContactOf) (lowConfOf env lang batch) hidx
      · rw [hred]
    · intro hnone
      rw [hred] at hnone
      simp at hnone
    · intro P S hP hS k
      exact mergeResults_getElem? P S hP hS k
  · have hred : processAIBatch env lang now expiresAt store batch =
        { results := primaryResultsOf env lang batch
        , model_used := (env.classify true (batch.map aiContactOf) lang).model_used
        , cacheHit := false, primaryCalled := true
        , escalatedContacts := none
        , tokensDelta := (env.classify true (batch.map aiContactOf) lang).tokens_used + 0
        , store := aiCacheUpsert store
            ⟨batchHash env lang (batch.map aiContactOf), primaryResultsOf env lang batch,
              (env.classify true (batch.map aiContactOf) lang).model_used, expiresAt⟩
        , rowWrites := batchWrites env
            (env.classify true (batch.map aiContactOf) lang).model_used batch
            (primaryResultsOf env lang batch)
        , logs := [Severity.INFO]
        , newlyAied := newlyCount batch (primaryResultsOf env lang batch) } := by
      simp only [processAIBatch, hmiss, lowConfOf, primaryResultsOf]
      rw [if_neg (by simpa [lowConfOf, primaryResultsOf] using hcond)]
      rfl
    refine ⟨by rw [hred], ?_, ?_, ?_, ?_⟩
    · rw [hred]
      simpa using hcond
    · intro l hl
      rw [hred] at hl
      simp at hl
    · intro _
      rw [hred]
    · intro P S hP hS k
      exact mergeResults_getElem? P S hP hS k

/-- One row of the C2 witness batch. -/
def c2row (i : Nat) : AIRow :=
  { id := i, row_index := i, normalized := { nom_complet := "c" }, enrichment := none
  , classification_method := none, ai_used := false, ai_attempts := 0
  , final_category := none, confidence := none, needs_review := false }

/-- Three-row batch for the C2 witness. -/
def c2rows : List AIRow := [c2row 0, c2row 1, c2row 2]

/-- AI environment for the C2 witness: the primary model returns
confidence 50 for row 0 and 90 elsewhere; the secondary model returns
confidence 95. -/
def c2env : AIEnv :=
  { classify := fun usePrimary cs _ =>
      if usePrimary then
        { results := cs.map (fun c =>
            { index := c.index, final_category := Category.CLIENT
            , confidence := if c.index = 0 then 50 else 90
            , reason := "", public_signals_used := "", needs_review := false })
        , model_used := "primary", tokens_used := 1 }
      else
        { results := cs.map (fun c =>
            { index := c.index, final_category := Category.SUPPLIER, confidence := 95
            , reason := "", public_signals_used := "", needs_review := false })
        , model_used := "secondary", tokens_used := 1 }
  , serialize := fun _ => "batch", pick := fun _ => 0 }

/-- Witness for C2 at a concrete three-row batch with one low-confidence
primary result. -/
theorem ai_escalation_rule_witness :
    (processAIBatch c2env Language.en 0 10 [] c2rows).primaryCalled = true ∧
    ((processAIBatch c2env Language.en 0 10 [] c2rows).escalatedContacts.isSome ↔
      (0 < (lowConfOf c2env Language.en c2rows).length ∧
        2 * (lowConfOf c2env Language.en c2rows).length < c2rows.length)) :=
  ⟨(ai_escalation_rule c2env Language.en 0 10 [] c2rows (by decide)).1,
    (ai_escalation_rule c2env Language.en 0 10 [] c2rows (by decide)).2.1⟩

/-! ### C5 (corrected) -/

/-- C5 counterexample inputs: a job at 59 of 100 AI rows (59%, under the
60% cap) and 21 fresh rows, which `classify-ai` processes as two batches. -/
def c5job : AIJob := { ai_rows := 59, total_rows := 100, language := Language.en
                     , ai_tokens_estimate := 0 }

/-- One fresh row of the C5 counterexample. -/
def c5row (i : Nat) : AIRow :=
  { id := i, row_index := i, normalized := { nom_complet := "c" }, enrichment := none
  , classification_method := none, ai_used := false, ai_attempts := 0
  , final_category := none, confidence := none, needs_review := false }

/-- The 21 rows of the C5 counterexample. -/
def c5rows : List AIRow := (List.range 21).map c5row

/-- AI environment of the C5 counterexample: every call answers confidence
100 and the serialization distinguishes batches by length. -/
def c5env : AIEnv :=
  { classify := fun _ cs _ =>
      { results := cs.map (fun c =>
          { index := c.index, final_category := Category.CLIENT, confidence := 100
          , reason := "", public_signals_used := "", needs_review := false })
      , model_used := "m", tokens_used := 0 }
  , serialize := fun cs => String.mk (List.replicate cs.length 'a')
  , pick := fun _ => 0 }

set_option maxRecDepth 100000 in
/-- C5 counterexample: the AI-row percentage is not re-checked before each
batch. After the first batch of this invocation the job's live AI-row
percentage is 79% ≥ 60%, yet the second batch still issues a primary AI
call (two primary calls in total), contradicting "whenever the percentage
is at or above the cap, no further AI calls are issued in that invocation". -/
theorem ai_cap_not_rechecked_per_batch :
    ((classifyAIInvocation c5env 60 c5job c5rows [] 0 1000).batchTrace).any
      (fun e => decide (60 * c5job.total_rows ≤ 100 * e.1) && e.2) = true ∧
    (classifyAIInvocation c5env 60 c5job c5rows [] 0 1000).primaryCalls = 2 := by
  constructor
  · decide
  · decide

/-- C5 amended: the AI-usage cap is checked once per invocation, before any
batch is processed; when the job is at or above the cap at that check, no
AI call is issued in the invocation, the remaining rows with null
`final_category` are bulk-updated to `needs_review = true` without a
category, a WARNING is logged, and the job is never set to FAILED (the
last point holds for every invocation). -/
theorem ai_cap_checked_once (env : AIEnv) (maxAIPercent : Nat) (job : AIJob)
    (rows : List AIRow) (store : List AICacheEntry) (now expiresAt : Nat) :
    (aiCapReached maxAIPercent job = true →
      (classifyAIInvocation env maxAIPercent job rows store now expiresAt).primaryCalls = 0 ∧
      (classifyAIInvocation env maxAIPercent job rows store now expiresAt).secondaryCalls = 0 ∧
      (classifyAIInvocation env maxAIPercent job rows store now expiresAt).capReached = true ∧
      Severity.WARNING ∈
        (classifyAIInvocation env maxAIPercent job rows store now expiresAt).logs ∧
      (classifyAIInvocation env maxAIPercent job rows store now expiresAt).rowWrites =
        [RowWrite.bulkNeedsReview] ∧
      (classifyAIInvocation env maxAIPercent job rows store now expiresAt).statusWrites = []) ∧
    JobStatus.FAILED ∉
      (classifyAIInvocation env maxAIPercent job rows store now expiresAt).statusWrites := by
  constructor
  · intro hcap
    simp [classifyAIInvocation, hcap]
  · by_cases hcap : aiCapReached maxAIPercent job
    · simp [classifyAIInvocation, hcap]
    · rcases rows with _ | ⟨r, rest⟩
      · simp [classifyAIInvocation, hcap]
      · simp [classifyAIInvocation, hcap]

/-- Witness for the amended C5: a job at 6 of 10 AI rows against a 60% cap. -/
theorem ai_cap_checked_once_witness :
    ((classifyAIInvocation aiEnvTrivial 60
        ⟨6, 10, Language.en, 0⟩ [c5row 0] [] 0 10).primaryCalls = 0 ∧
      (classifyAIInvocation aiEnvTrivial 60
        ⟨6, 10, Language.en, 0⟩ [c5row 0] [] 0 10).secondaryCalls = 0 ∧
      (classifyAIInvocation aiEnvTrivial 60
        ⟨6, 10, Language.en, 0⟩ [c5row 0] [] 0 10).capReached = true ∧
      Severity.WARNING ∈ (classifyAIInvocation aiEnvTrivial 60
        ⟨6, 10, Language.en, 0⟩ [c5row 0] [] 0 10).logs ∧
      (classifyAIInvocation aiEnvTrivial 60
        ⟨6, 10, Language.en, 0⟩ [c5row 0] [] 0 10).rowWrites = [RowWrite.bulkNeedsReview] ∧
      (classifyAIInvocation aiEnvTrivial 60
        ⟨6, 10, Language.en, 0⟩ [c5row 0] [] 0 10).statusWrites = []) ∧
    JobStatus.FAILED ∉ (classifyAIInvocation aiEnvTrivial 60
      ⟨6, 10, Language.en, 0⟩ [c5row 0] [] 0 10).statusWrites :=
  ⟨(ai_cap_checked_once aiEnvTrivial 60 ⟨6, 10, Language.en, 0⟩ [c5row 0] [] 0 10).1
      (by decide),
    (ai_cap_checked_once aiEnvTrivial 60 ⟨6, 10, Language.en, 0⟩ [c5row 0] [] 0 10).2⟩

/-! ### C1 -/

/-- The three raw category scores of a contact (CLIENT, PRESCRIBER,
SUPPLIER), in the fixed order of the source. -/
def ruleScores (c : NormalizedContact) : Nat × Nat × Nat :=
  ((scoreCategory (searchTextOf c) CLIENT_KEYWORDS).1,
    (scoreCategory (searchTextOf c) PRESCRIBER_KEYWORDS).1,
    (scoreCategory (searchTextOf c) SUPPLIER_KEYWORDS).1)

/-- The claim's `topScore`: the largest of the three category scores. -/
def ruleTop (c : NormalizedContact) : Nat :=
  max (ruleScores c).1 (max (ruleScores c).2.1 (ruleScores c).2.2)

/-- The claim's `secondScore`: the second largest of the three scores. -/
def ruleSecond (c : NormalizedContact) : Nat :=
  max (min (max (ruleScores c).1 (ruleScores c).2.1) (ruleScores c).2.2)
    (min (ruleScores c).1 (ruleScores c).2.1)

/-- The claim's confidence formula
`min(100, round(topScore / 30 * 100))` (`maxPossibleScore = 3 * 10`). -/
def ruleConfidence (c : NormalizedContact) : Nat :=
  min 100 (jsRoundDiv (ruleTop c * 100) 30)

/-- The raw score a category received for a contact. -/
def ruleScoreOfCat (c : NormalizedContact) : Category → Nat
  | Category.CLIENT => (ruleScores c).1
  | Category.PRESCRIBER => (ruleScores c).2.1
  | Category.SUPPLIER => (ruleScores c).2.2
  | Category.A_QUALIFIER => 0

lemma sortDesc_three (c1 c2 c3 : Category) (n1 n2 n3 : Nat) (g1 g2 g3 : List String) :
    sortDesc [⟨c1, n1, g1⟩, ⟨c2, n2, g2⟩, ⟨c3, n3, g3⟩] =
      if n3 ≤ n2 then
        if n2 ≤ n1 then [⟨c1, n1, g1⟩, ⟨c2, n2, g2⟩, ⟨c3, n3, g3⟩]
        else if n3 ≤ n1 then [⟨c2, n2, g2⟩, ⟨c1, n1, g1⟩, ⟨c3, n3, g3⟩]
        else [⟨c2, n2, g2⟩, ⟨c3, n3, g3⟩, ⟨c1, n1, g1⟩]
      else
        if n3 ≤ n1 then [⟨c1, n1, g1⟩, ⟨c3, n3, g3⟩, ⟨c2, n2, g2⟩]
        else if n2 ≤ n1 then [⟨c3, n3, g3⟩, ⟨c1, n1, g1⟩, ⟨c2, n2, g2⟩]
        else [⟨c3, n3, g3⟩, ⟨c2, n2, g2⟩, ⟨c1, n1, g1⟩] := by
  simp only [sortDesc, List.foldr_cons, List.foldr_nil]
  by_cases h1 : n3 ≤ n2 <;> by_cases h2 : n2 ≤ n1 <;> by_cases h3 : n3 ≤ n1 <;>
    simp [insertDesc, h1, h2, h3]

lemma sortDesc_three_spec (c1 c2 c3 : Category) (n1 n2 n3 : Nat)
    (g1 g2 g3 : List String) :
    ∃ s0 s1 s2 : CategoryScore,
      sortDesc [⟨c1, n1, g1⟩, ⟨c2, n2, g2⟩, ⟨c3, n3, g3⟩] = [s0, s1, s2] ∧
      s0.score = max n1 (max n2 n3) ∧
      s1.score = max (min (max n1 n2) n3) (min n1 n2) ∧
      (s0 = ⟨c1, n1, g1⟩ ∨ s0 = ⟨c2, n2, g2⟩ ∨ s0 = ⟨c3, n3, g3⟩) := by
  rw [sortDesc_three]
  split_ifs <;>
    exact ⟨_, _, _, rfl, by dsimp only; omega, by dsimp only; omega, by simp⟩

/-- C1: `classifyByRules` computes
`confidence = min(100, round(topScore / 30 * 100))` and returns the
top-scoring category exactly when `confidence ≥ RULE_ACCEPT_THRESHOLD`,
`topScore − secondScore ≥ RULE_MARGIN_THRESHOLD` and `topScore > 0`;
in every other case it returns null. -/
theorem rules_accept_iff (contact : NormalizedContact) (lang : Language) (RAT RMT : Nat) :
    ((classifyByRules contact lang RAT RMT).isSome ↔
      (RAT ≤ ruleConfidence contact ∧ RMT ≤ ruleTop contact - ruleSecond contact ∧
        0 < ruleTop contact)) ∧
    (∀ r, classifyByRules contact lang RAT RMT = some r →
      r.confidence = ruleConfidence contact ∧
      ruleScoreOfCat contact r.final_category = ruleTop contact) := by
  obtain ⟨s0, s1, s2, hsort, hs0, hs1, hs0mem⟩ :=
    sortDesc_three_spec Category.CLIENT Category.PRESCRIBER Category.SUPPLIER
      (scoreCategory (searchTextOf contact) CLIENT_KEYWORDS).1
      (scoreCategory (searchTextOf contact) PRESCRIBER_KEYWORDS).1
      (scoreCategory (searchTextOf contact) SUPPLIER_KEYWORDS).1
      (scoreCategory (searchTextOf contact) CLIENT_KEYWORDS).2
      (scoreCategory (searchTextOf contact) PRESCRIBER_KEYWORDS).2
      (scoreCategory (searchTextOf contact) SUPPLIER_KEYWORDS).2
  have hT : ruleTop contact = s0.score := by
    rw [show ruleTop contact =
      max (scoreCategory (searchTextOf contact) CLIENT_KEYWORDS).1
        (max (scoreCategory (searchTextOf contact) PRESCRIBER_KEYWORDS).1
          (scoreCategory (searchTextOf contact) SUPPLIER_KEYWORDS).1) from rfl, ← hs0]
  have hS : ruleSecond contact = s1.score := by
    rw [show ruleSecond contact =
      max (min (max (scoreCategory (searchTextOf contact) CLIENT_KEYWORDS).1
          (scoreCategory (searchTextOf contact) PRESCRIBER_KEYWORDS).1)
        (scoreCategory (searchTextOf contact) SUPPLIER_KEYWORDS).1)
        (min (scoreCategory (searchTextOf contact) CLIENT_KEYWORDS).1
          (scoreCategory (searchTextOf contact) PRESCRIBER_KEYWORDS).1) from rfl, ← hs1]
  have hdef : classifyByRules contact lang RAT RMT =
      (if RAT ≤ min 100 (jsRoundDiv (s0.score * 100) (WEIGHTS.high * 3)) ∧
          RMT ≤ s0.score - s1.score ∧ 0 < s0.score then
        some
          { final_category := s0.category
          , confidence := min 100 (jsRoundDiv (s0.score * 100) (WEIGHTS.high * 3))
          , reason :=
              (match lang with
                | Language.fr => "Classification par règles: " ++
                    String.intercalate ", " (s0.signals.take 3)
                | Language.en => "Rules-based classification: " ++
                    String.intercalate ", " (s0.signals.take 3))
          , public_signals_used := String.intercalate "; " (s0.signals.take 5)
          , needs_review := min 100 (jsRoundDiv (s0.score * 100) (WEIGHTS.high * 3)) < 90 }
      else none) := by
    simp only [classifyByRules]
    rw [hsort]
    simp only [List.headD_cons, List.drop_succ_cons, List.drop_zero]
  have hC : ruleConfidence contact =
      min 100 (jsRoundDiv (s0.score * 100) (WEIGHTS.high * 3)) := by
    rw [show ruleConfidence contact = min 100 (jsRoundDiv (ruleTop contact * 100) 30) from rfl,
      hT]
    rfl
  constructor
  · rw [hdef, hC, hT, hS]
    split_ifs with hacc
    · simpa using hacc
    · simpa using hacc
  · intro r hr
    rw [hdef] at hr
    by_cases hacc : RAT ≤ min 100 (jsRoundDiv (s0.score * 100) (WEIGHTS.high * 3)) ∧
        RMT ≤ s0.score - s1.score ∧ 0 < s0.score
    · rw [if_pos hacc] at hr
      have hrr := (Option.some.injEq _ _).mp hr
      subst hrr
      refine ⟨by rw [hC], ?_⟩
      rw [hT]
      rcases hs0mem with h | h | h <;> subst h <;> rfl
    · rw [if_neg hacc] at hr
      exact absurd hr (by simp)

/-- Contact for the C1 witness: three high-weight CLIENT keywords. -/
def c1contact : NormalizedContact := { nom_complet := "client customer acheteur" }

/-- The result `classifyByRules` produces on `c1contact`. -/
def c1result : ClassificationResult :=
  { final_category := Category.CLIENT, confidence := 100
  , reason := "Rules-based classification: client, customer, acheteur"
  , public_signals_used := "client; customer; acheteur"
  , needs_review := false }

/-- Witness for C1 at a concrete accepted contact. -/
theorem rules_accept_iff_witness :
    classifyByRules c1contact Language.en 80 15 = some c1result ∧
    c1result.confidence = ruleConfidence c1contact ∧
    ruleScoreOfCat c1contact c1result.final_category = ruleTop c1contact :=
  ⟨by decide,
    ((rules_accept_iff c1contact Language.en 80 15).2 c1result (by decide)).1,
    ((rules_accept_iff c1contact Language.en 80 15).2 c1result (by decide)).2⟩

end ContactPipeline
